import Mathlib

/-!
Verification of the exchange-rate ingestion core (`app/converter.py`, `app/bq.py`).

Python floats are modelled as exact rationals with NaN and the two infinities
adjoined; Python dicts are modelled as insertion-ordered association lists
(`List (String × _)`, first occurrence wins on lookup, as in a dict where keys
are unique); raised exceptions are modelled as `Except` errors carrying the
exception class and message.
-/

namespace ExchangeRates

/-- A value that can appear inside the `rates` mapping of an API response:
a finite number (int or float, as an exact rational), NaN, +inf, -inf,
`None`, or a non-numeric value such as a string. -/
inductive RVal : Type where
  | num (q : ℚ)
  | nan
  | inf
  | ninf
  | null
  | str (s : String)
  deriving DecidableEq

/-- A value of the top-level response object `oxr_data`: either a dictionary
(the shape expected for `rates`) or a non-dictionary leaf value. -/
inductive TopVal : Type where
  | dict (entries : List (String × RVal))
  | leaf (v : RVal)
  deriving DecidableEq

/-- A Python exception, by class and message.  `storage` stands for an
exception raised by the BigQuery client library. -/
inductive PyErr : Type where
  | keyError (msg : String)
  | typeError (msg : String)
  | valueError (msg : String)
  | storage (msg : String)
  deriving DecidableEq

/-- The Python comparison `v <= 0` on a rates value (`converter.py` line 58):
`nan <= 0` and `inf <= 0` are `False`, `-inf <= 0` is `True`, and comparing
`None` or a string against `0` raises `TypeError`. -/
def le0 : RVal → Except PyErr Bool
  | .num q => if q ≤ 0 then .ok true else .ok false
  | .nan => .ok false
  | .inf => .ok false
  | .ninf => .ok true
  | .null => .error (.typeError "unsupported comparison: NoneType and int")
  | .str _ => .error (.typeError "unsupported comparison: str and int")

/-- The per-entry skip policy of the conversion loop (`converter.py` lines
66-84): an entry is usable only when it is a finite number strictly greater
than zero; `None`, non-numeric, NaN, infinite and non-positive values are
skipped. -/
def usableRate : RVal → Option ℚ
  | .num q => if 0 < q then some q else none
  | _ => none

/-- Python float division `v / usd_to_eur` for a positive finite `v`
(`converter.py` line 89).  The pivot can only be a positive finite number,
NaN or +inf here, because every other value was rejected by the `<= 0`
check; `v / nan = nan` and `v / inf = 0.0`.  The remaining cases are
unreachable at the call site. -/
def divByPivot (v : ℚ) : RVal → RVal
  | .num k => .num (v / k)
  | .nan => .nan
  | .inf => .num 0
  | .ninf => .num 0
  | .null => .nan
  | .str _ => .nan

/-- The conversion loop of `convert_usd_to_eur_base` (`converter.py` lines
63-89): iterate the entries in insertion order, skip unusable rates, emit
exactly `1.0` for EUR and `v / usd_to_eur` for every other currency. -/
def convertEntries (usd_to_eur : RVal) : List (String × RVal) → List (String × RVal)
  | [] => []
  | (currency, v) :: rest =>
    match usableRate v with
    | none => convertEntries usd_to_eur rest
    | some q =>
      if currency = "EUR" then ("EUR", RVal.num 1) :: convertEntries usd_to_eur rest
      else (currency, divByPivot q usd_to_eur) :: convertEntries usd_to_eur rest

/-- `convert_usd_to_eur_base` (`converter.py` lines 13-94): structural
validation (missing `rates` key, non-dict `rates`, empty `rates`, missing
EUR entry, the `usd_to_eur <= 0` check) followed by the conversion loop. -/
def convert_usd_to_eur_base (oxr_data : List (String × TopVal)) :
    Except PyErr (List (String × RVal)) :=
  match List.lookup "rates" oxr_data with
  | none => .error (.keyError "Missing rates key in API response")
  | some (.leaf _) => .error (.typeError "rates must be a dictionary")
  | some (.dict usd_rates) =>
    if usd_rates.isEmpty then .error (.valueError "EUR rate not found in API response")
    else
      match List.lookup "EUR" usd_rates with
      | none => .error (.valueError "EUR rate not found in API response")
      | some usd_to_eur =>
        match le0 usd_to_eur with
        | .error e => .error e
        | .ok true => .error (.valueError "EUR rate must be greater than zero")
        | .ok false => .ok (convertEntries usd_to_eur usd_rates)

/-- A rate record as loaded into BigQuery (`bq.py`): ISO date string, currency
code, EUR-relative rate, and the observation timestamp (Unix seconds or ISO
string, both modelled as a string payload). -/
structure RateRecord : Type where
  date : String
  currency : String
  rate_to_eur : ℚ
  timestamp : String
  deriving DecidableEq

/-- The fixed staging schema of `ensure_staging_table` (`bq.py` lines 40-45),
as a field-name to field-type mapping. -/
def stagingSchema : List (String × String) :=
  [("date", "DATE"), ("currency", "STRING"),
   ("rate_to_eur", "FLOAT64"), ("timestamp", "TIMESTAMP")]

/-- A BigQuery table used as the staging area: its schema and its rows. -/
structure StagingTable : Type where
  schema : List (String × String)
  rows : List RateRecord
  deriving DecidableEq

/-- The schema check of `ensure_staging_table` (`bq.py` line 57):
`existing_schema.get("timestamp") in ["TIMESTAMP", "INTEGER"]`. -/
def timestampTypeOK (schema : List (String × String)) : Bool :=
  match List.lookup "timestamp" schema with
  | some t => t = "TIMESTAMP" || t = "INTEGER"
  | none => false

/-- `ensure_staging_table` (`bq.py` lines 22-66) acting on the staging table
state (`none` = table absent): an existing table whose timestamp field type is
TIMESTAMP or INTEGER is left untouched; otherwise the table is dropped and
recreated (empty) with the fixed schema; an absent table is created. -/
def ensure_staging_table : Option StagingTable → Option StagingTable
  | some t =>
    if timestampTypeOK t.schema then some t
    else some ⟨stagingSchema, []⟩
  | none => some ⟨stagingSchema, []⟩

/-- The content of the destination table, keyed by `(date, currency)` — the
natural key the MERGE statement matches on; a key maps to its row's
`(rate_to_eur, timestamp)` payload. -/
def MainTable : Type := String × String → Option (ℚ × String)

/-- One row action of the MERGE statement of `merge_staging_to_main`
(`bq.py` lines 112-147): a matched destination row has `rate_to_eur` and
`timestamp` overwritten, an unmatched source row is inserted. -/
def applyMergeRow (t : MainTable) (r : RateRecord) : MainTable :=
  fun k => if k = (r.date, r.currency) then some (r.rate_to_eur, r.timestamp) else t k

/-- The MERGE of the staging rows into the destination table: key-based
upsert, rows applied in staging order, so the last staging row per key wins. -/
def mergeRows (t : MainTable) (rows : List RateRecord) : MainTable :=
  rows.foldl applyMergeRow t

/-- The last `(rate_to_eur, timestamp)` payload among the rows of a list that
carry the given `(date, currency)` key — the value the MERGE leaves behind for
that key. -/
def lastValue : List RateRecord → String × String → Option (ℚ × String)
  | [], _ => none
  | r :: rest, k =>
    match lastValue rest k with
    | some p => some p
    | none => if k = (r.date, r.currency) then some (r.rate_to_eur, r.timestamp) else none

/-- The storage operations `upsert_exchange_rates` performs, in order, used to
record which steps of the protocol actually ran. -/
inductive StorageOp : Type where
  | getClient
  | ensureTable
  | truncate
  | load (n : Nat)
  | merge
  deriving DecidableEq

/-- The full BigQuery state seen by `upsert_exchange_rates`: the staging
table, the destination table content, and the trace of operations run. -/
structure BQState : Type where
  staging : Option StagingTable
  main : MainTable
  trace : List StorageOp

/-- Fault injection for the storage layer: when a field is `some e`, the
corresponding client call in `upsert_exchange_rates` raises the underlying
storage error `e`. -/
structure StorageFaults : Type where
  ensureErr : Option String
  truncateErr : Option String
  loadErr : Option String
  mergeErr : Option String
  deriving DecidableEq

/-- The fault-free storage layer. -/
def noFaults : StorageFaults := ⟨none, none, none, none⟩

/-- `upsert_exchange_rates` (`bq.py` lines 150-210): empty batches return
immediately; otherwise `get_client` reads `PROJECT_ID` (raising `ValueError`
when unset), then the four steps run in sequence — ensure staging, truncate
staging, load the records (append mode, onto the now-empty staging), MERGE
staging into the destination.  Any exception is logged and re-raised
unchanged (`bq.py` lines 208-210). -/
def upsert_exchange_rates (project_id : Option String) (faults : StorageFaults)
    (s : BQState) (records : List RateRecord) : Except PyErr BQState :=
  if records.isEmpty then .ok s
  else
    match project_id with
    | none => .error (.valueError "PROJECT_ID environment variable not set")
    | some _ =>
      let s1 : BQState := { s with trace := s.trace ++ [StorageOp.getClient] }
      match faults.ensureErr with
      | some e => .error (.storage e)
      | none =>
        let s2 : BQState := { s1 with
          staging := ensure_staging_table s1.staging,
          trace := s1.trace ++ [StorageOp.ensureTable] }
        match faults.truncateErr with
        | some e => .error (.storage e)
        | none =>
          let s3 : BQState := { s2 with
            staging := s2.staging.map (fun t => { t with rows := [] }),
            trace := s2.trace ++ [StorageOp.truncate] }
          match faults.loadErr with
          | some e => .error (.storage e)
          | none =>
            let s4 : BQState := { s3 with
              staging := s3.staging.map (fun t => { t with rows := t.rows ++ records }),
              trace := s3.trace ++ [StorageOp.load records.length] }
            match faults.mergeErr with
            | some e => .error (.storage e)
            | none =>
              let stagedRows : List RateRecord :=
                match s4.staging with
                | some t => t.rows
                | none => []
              .ok { s4 with
                main := mergeRows s4.main stagedRows,
                trace := s4.trace ++ [StorageOp.merge] }

/-- `n` successive calls of `upsert_exchange_rates` with the same batch,
stopping at the first failure. -/
def upsertN (project_id : Option String) (faults : StorageFaults)
    (records : List RateRecord) : Nat → BQState → Except PyErr BQState
  | 0, s => .ok s
  | n + 1, s =>
    (upsert_exchange_rates project_id faults s records).bind
      (upsertN project_id faults records n)

def emptyMain : MainTable := fun _ => none

/-- A snapshot whose EUR entry is NaN: the Python comparison `nan <= 0` is
`False`, so the validation accepts it. -/
def nanPivotInput : List (String × TopVal) :=
  [("rates", .dict [("EUR", .nan), ("USD", .num 1)])]

/-- A snapshot whose EUR entry is +infinity. -/
def infPivotInput : List (String × TopVal) :=
  [("rates", .dict [("EUR", .inf), ("USD", .num 1)])]

/-- A snapshot whose EUR entry is zero. -/
def zeroPivotInput : List (String × TopVal) :=
  [("rates", .dict [("EUR", .num 0), ("USD", .num 1)])]

/-- A well-formed snapshot with an integer-valued EUR pivot. -/
def eurIntInput : List (String × TopVal) :=
  [("rates", .dict [("EUR", .num 2), ("USD", .num 1)])]

/-- The snapshot `rates = (EUR: 0.92, USD: 1.0)` from the spec. -/
def usdExampleInput : List (String × TopVal) :=
  [("rates", .dict [("EUR", .num (23/25)), ("USD", .num 1)])]

/-- The snapshot `rates = (GBP: 0.81)` (no EUR) from the spec. -/
def gbpOnlyInput : List (String × TopVal) :=
  [("rates", .dict [("GBP", .num (81/100))])]

/-- The snapshot `rates = (EUR: 0.92, USD: 1.0, BAD: -5.0)` from the spec. -/
def badEntryInput : List (String × TopVal) :=
  [("rates", .dict [("EUR", .num (23/25)), ("USD", .num 1), ("BAD", .num (-5))])]

/-- An existing staging table whose timestamp column has type STRING. -/
def badStagingTable : StagingTable :=
  ⟨[("date", "DATE"), ("currency", "STRING"),
    ("rate_to_eur", "FLOAT64"), ("timestamp", "STRING")], []⟩

/-- An existing staging table whose timestamp column has type INTEGER, with
one row and a schema different from the fixed one. -/
def goodStagingTable : StagingTable :=
  ⟨[("timestamp", "INTEGER"), ("extra", "STRING")],
   [⟨"2025-11-10", "USD", 2, "ts"⟩]⟩

/-- A concrete batch record with an integer-valued rate. -/
def w1record : RateRecord := ⟨"2025-11-10", "USD", 2, "1762776000"⟩

/-- A concrete initial BigQuery state: no staging table, empty destination. -/
def w1start : BQState := ⟨none, emptyMain, []⟩

/-- The state after one successful upsert of `[w1record]` from `w1start`. -/
def w1once : BQState :=
  ⟨some ⟨stagingSchema, [w1record]⟩, mergeRows emptyMain [w1record],
   [.getClient, .ensureTable, .truncate, .load 1, .merge]⟩

example :
    convert_usd_to_eur_base [("rates", .dict [("EUR", .num (23/25)), ("USD", .num 1)])] =
      .ok [("EUR", .num 1), ("USD", .num (25/23))] := by
  norm_num [convert_usd_to_eur_base, convertEntries, usableRate, le0, divByPivot, List.lookup]
  decide

example :
    convert_usd_to_eur_base [("rates", .dict [("EUR", .num 2), ("USD", .num 1)])] =
      .ok [("EUR", .num 1), ("USD", .num (1/2))] := rfl

example :
    convert_usd_to_eur_base [("rates", .dict [("EUR", .nan), ("USD", .num 1)])] =
      .ok [("USD", .nan)] := rfl

example :
    convert_usd_to_eur_base [("rates", .dict [("GBP", .num (81/100))])] =
      .error (.valueError "EUR rate not found in API response") := rfl

example :
    upsert_exchange_rates (some "p") noFaults ⟨none, emptyMain, []⟩
        [⟨"2025-11-10", "USD", 2, "ts"⟩] =
      .ok ⟨some ⟨stagingSchema, [⟨"2025-11-10", "USD", 2, "ts"⟩]⟩,
           mergeRows emptyMain [⟨"2025-11-10", "USD", 2, "ts"⟩],
           [.getClient, .ensureTable, .truncate, .load 1, .merge]⟩ := rfl

example :
    upsert_exchange_rates none noFaults ⟨none, emptyMain, []⟩ [] =
      .ok ⟨none, emptyMain, []⟩ := rfl

/-- If the first entry with key `"EUR"` carries a positive finite rate, the
conversion loop emits exactly `1.0` for `"EUR"`. -/
theorem convertEntries_eur_lookup (k : RVal) (q : ℚ) :
    ∀ rates : List (String × RVal), List.lookup "EUR" rates = some (RVal.num q) → 0 < q →
      List.lookup "EUR" (convertEntries k rates) = some (RVal.num 1) := by
  intro rates
  induction rates with
  | nil => intro h; simp at h
  | cons hd tl ih =>
    obtain ⟨c, v⟩ := hd
    intro h hq
    by_cases hc : "EUR" = c
    · subst hc
      simp [List.lookup] at h
      subst h
      simp [convertEntries, usableRate, hq, List.lookup]
    · have hBeq : ("EUR" == c) = false := by simpa using hc
      simp only [List.lookup, hBeq] at h
      have htl := ih h hq
      simp only [convertEntries]
      cases hu : usableRate v with
      | none => exact htl
      | some q0 =>
        by_cases hc2 : c = "EUR"
        · exact absurd hc2.symm hc
        · simp only [if_neg hc2, List.lookup, hBeq]
          exact htl

/-- If the first entry with key `c ≠ "EUR"` carries a positive finite rate
`q`, the conversion loop emits `q / k` (as Python division) for `c`. -/
theorem convertEntries_ne_lookup (k : RVal) (c : String) (q : ℚ) (hc : c ≠ "EUR") :
    ∀ rates : List (String × RVal), List.lookup c rates = some (RVal.num q) → 0 < q →
      List.lookup c (convertEntries k rates) = some (divByPivot q k) := by
  intro rates
  induction rates with
  | nil => intro h; simp at h
  | cons hd tl ih =>
    obtain ⟨c0, v⟩ := hd
    intro h hq
    by_cases hcc : c = c0
    · subst hcc
      simp [List.lookup] at h
      subst h
      simp [convertEntries, usableRate, hq, if_neg hc, List.lookup]
    · have hBeq : (c == c0) = false := by simpa using hcc
      simp only [List.lookup, hBeq] at h
      have htl := ih h hq
      simp only [convertEntries]
      cases hu : usableRate v with
      | none => exact htl
      | some q0 =>
        by_cases hc0 : c0 = "EUR"
        · subst hc0
          simp only [if_pos rfl, List.lookup, hBeq]
          exact htl
        · simp only [if_neg hc0, List.lookup, hBeq]
          exact htl

/-- If every entry with key `c` is unusable, the conversion loop emits
nothing for `c`. -/
theorem convertEntries_unusable_lookup (k : RVal) (c : String) :
    ∀ rates : List (String × RVal), (∀ w, (c, w) ∈ rates → usableRate w = none) →
      List.lookup c (convertEntries k rates) = none := by
  intro rates
  induction rates with
  | nil => intro _; simp [convertEntries]
  | cons hd tl ih =>
    obtain ⟨c0, v⟩ := hd
    intro h
    have htl := ih (fun w hw => h w (List.mem_cons_of_mem _ hw))
    simp only [convertEntries]
    cases hu : usableRate v with
    | none => exact htl
    | some q0 =>
      have hcc : c ≠ c0 := by
        intro hEq
        subst hEq
        have := h v (List.mem_cons_self _ _)
        rw [this] at hu
        exact Option.noConfusion hu
      have hBeq : (c == c0) = false := by simpa using hcc
      by_cases hc0 : c0 = "EUR"
      · subst hc0
        simp only [if_pos rfl, List.lookup, hBeq]
        exact htl
      · simp only [if_neg hc0, List.lookup, hBeq]
        exact htl

/-- In a list with pairwise-distinct keys, the value of a key is unique. -/
theorem mem_eq_of_nodup_keys :
    ∀ l : List (String × RVal), (l.map Prod.fst).Nodup →
      ∀ c v w, (c, v) ∈ l → (c, w) ∈ l → v = w := by
  intro l
  induction l with
  | nil => intro _ c v w hv; simp at hv
  | cons hd tl ih =>
    obtain ⟨c0, u⟩ := hd
    intro hnd c v w hv hw
    simp only [List.map_cons, List.nodup_cons] at hnd
    rcases List.mem_cons.mp hv with hv1 | hv2
    · rcases List.mem_cons.mp hw with hw1 | hw2
      · rw [Prod.mk.injEq] at hv1 hw1
        rw [hv1.2, hw1.2]
      · exfalso
        rw [Prod.mk.injEq] at hv1
        exact hnd.1 (hv1.1 ▸ List.mem_map_of_mem Prod.fst hw2)
    · rcases List.mem_cons.mp hw with hw1 | hw2
      · exfalso
        rw [Prod.mk.injEq] at hw1
        exact hnd.1 (hw1.1 ▸ List.mem_map_of_mem Prod.fst hv2)
      · exact ih hnd.2 c v w hv2 hw2

/-- A successful conversion on a snapshot whose `rates` entry is the
dictionary `rates` (with an EUR entry) returns exactly the conversion loop
output. -/
theorem convert_ok_entries (oxr : List (String × TopVal)) (rates : List (String × RVal))
    (k : RVal) (out : List (String × RVal))
    (hr : List.lookup "rates" oxr = some (TopVal.dict rates))
    (he : List.lookup "EUR" rates = some k)
    (hok : convert_usd_to_eur_base oxr = Except.ok out) :
    out = convertEntries k rates := by
  have hne : rates.isEmpty = false := by
    cases rates with
    | nil => simp at he
    | cons hd tl => rfl
  simp only [convert_usd_to_eur_base, hr, hne, Bool.false_eq_true, if_false, he] at hok
  cases hle : le0 k with
  | error e => rw [hle] at hok; exact Except.noConfusion hok
  | ok b =>
    cases b with
    | true => rw [hle] at hok; exact Except.noConfusion hok
    | false =>
      rw [hle] at hok
      exact (Except.ok.injEq _ _ ▸ hok).symm

/-- Pointwise description of the MERGE: a key carries the payload of the last
staging row with that key, and is untouched when no staging row has it. -/
theorem mergeRows_apply :
    ∀ (rows : List RateRecord) (t : MainTable) (k : String × String),
      mergeRows t rows k =
        match lastValue rows k with
        | some p => some p
        | none => t k := by
  intro rows
  induction rows with
  | nil => intro t k; rfl
  | cons r rest ih =>
    intro t k
    have : mergeRows t (r :: rest) k = mergeRows (applyMergeRow t r) rest k := rfl
    rw [this, ih]
    simp only [lastValue]
    cases h : lastValue rest k with
    | some p => rfl
    | none =>
      simp only [applyMergeRow]
      by_cases hk : k = (r.date, r.currency)
      · simp [hk]
      · simp [hk]

/-- Merging the same staging rows a second time changes nothing. -/
theorem mergeRows_idem (t : MainTable) (rows : List RateRecord) :
    mergeRows (mergeRows t rows) rows = mergeRows t rows := by
  funext k
  rw [mergeRows_apply, mergeRows_apply]
  cases h : lastValue rows k with
  | some p => rfl
  | none => rfl

/-- After the ensure step the staging table exists and its timestamp field
type passes the check. -/
theorem ensure_some_tsOK (st : Option StagingTable) :
    ∃ t, ensure_staging_table st = some t ∧ timestampTypeOK t.schema = true := by
  cases st with
  | none => exact ⟨⟨stagingSchema, []⟩, rfl, by decide⟩
  | some t =>
    by_cases h : timestampTypeOK t.schema = true
    · exact ⟨t, by simp [ensure_staging_table, h], h⟩
    · refine ⟨⟨stagingSchema, []⟩, ?_, by decide⟩
      simp [ensure_staging_table, h]

/-- Shape of a fault-free non-empty upsert: the staging table ends up holding
exactly the batch, the destination receives the MERGE of the batch, and all
five storage operations run once, in order. -/
theorem upsert_step (p : String) (records : List RateRecord) (hne : records ≠ [])
    (s : BQState) :
    ∃ t, ensure_staging_table s.staging = some t ∧
      upsert_exchange_rates (some p) noFaults s records =
        Except.ok
          { staging := some { t with rows := records },
            main := mergeRows s.main records,
            trace := s.trace ++
              [StorageOp.getClient, StorageOp.ensureTable, StorageOp.truncate,
               StorageOp.load records.length, StorageOp.merge] } := by
  obtain ⟨t, ht, _⟩ := ensure_some_tsOK s.staging
  refine ⟨t, ht, ?_⟩
  cases records with
  | nil => exact absurd rfl hne
  | cons r rs =>
    simp [upsert_exchange_rates, noFaults, ht]

/-- Inversion of a successful non-empty upsert: the project id was set, no
storage fault was injected, and the destination content is the MERGE of the
batch into the prior destination content. -/
theorem upsert_ok_inversion (pid : Option String) (f : StorageFaults) (s s1 : BQState)
    (records : List RateRecord) (hne : records ≠ [])
    (h : upsert_exchange_rates pid f s records = Except.ok s1) :
    ∃ p, pid = some p ∧ f = noFaults ∧ s1.main = mergeRows s.main records := by
  cases records with
  | nil => exact absurd rfl hne
  | cons r rs =>
    cases pid with
    | none => simp [upsert_exchange_rates] at h
    | some p =>
      obtain ⟨fe, ft, fl, fm⟩ := f
      cases fe with
      | some e => simp [upsert_exchange_rates] at h
      | none =>
        cases ft with
        | some e => simp [upsert_exchange_rates] at h
        | none =>
          cases fl with
          | some e => simp [upsert_exchange_rates] at h
          | none =>
            cases fm with
            | some e => simp [upsert_exchange_rates] at h
            | none =>
              obtain ⟨t, _, hstep⟩ := upsert_step p (r :: rs) hne s
              rw [show (⟨none, none, none, none⟩ : StorageFaults) = noFaults from rfl,
                hstep] at h
              refine ⟨p, rfl, rfl, ?_⟩
              rw [← Except.ok.injEq _ _ |>.mp h]

/-- Once the destination content is a fixed point of merging the batch, any
number of further fault-free upserts of that batch keeps it there. -/
theorem upsertN_fixed (p : String) (records : List RateRecord) (hne : records ≠ [])
    (M : MainTable) (hM : mergeRows M records = M) :
    ∀ (n : Nat) (s : BQState), s.main = M →
      ∃ sn, upsertN (some p) noFaults records n s = Except.ok sn ∧ sn.main = M := by
  intro n
  induction n with
  | zero => intro s hs; exact ⟨s, rfl, hs⟩
  | succ m ih =>
    intro s hs
    obtain ⟨t, _, hstep⟩ := upsert_step p records hne s
    have hmain : mergeRows s.main records = M := by rw [hs, hM]
    obtain ⟨sn, hn, hnm⟩ := ih
      { staging := some { t with rows := records },
        main := mergeRows s.main records,
        trace := s.trace ++
          [StorageOp.getClient, StorageOp.ensureTable, StorageOp.truncate,
           StorageOp.load records.length, StorageOp.merge] } hmain
    refine ⟨sn, ?_, hnm⟩
    simp only [upsertN, hstep, Except.bind]
    exact hn

/-- Upserting an empty batch any number of times never changes the state. -/
theorem upsertN_nil (pid : Option String) (f : StorageFaults) :
    ∀ (n : Nat) (s : BQState), upsertN pid f [] n s = Except.ok s := by
  intro n
  induction n with
  | zero => intro s; rfl
  | succ m ih =>
    intro s
    simp only [upsertN, upsert_exchange_rates, List.isEmpty_nil, if_true, Except.bind]
    exact ih s

/-- C2 counterexample: on a snapshot whose EUR entry is NaN, `convert`
succeeds and returns a non-empty mapping that has no EUR key at all, so the
claimed invariant fails as stated. -/
theorem convert_nan_pivot_no_eur_key :
    convert_usd_to_eur_base nanPivotInput = Except.ok [("USD", RVal.nan)] ∧
      List.lookup "EUR" [("USD", RVal.nan)] = none := ⟨rfl, rfl⟩

/-- C2 (amended): whenever `convert` succeeds and the EUR entry of the input
rates mapping is a positive finite number, the returned mapping is non-empty
and maps EUR to exactly `1.0`. -/
theorem convert_eur_pivot_one (oxr : List (String × TopVal))
    (rates out : List (String × RVal)) (q : ℚ)
    (hr : List.lookup "rates" oxr = some (TopVal.dict rates))
    (he : List.lookup "EUR" rates = some (RVal.num q)) (hq : 0 < q)
    (hok : convert_usd_to_eur_base oxr = Except.ok out) :
    List.lookup "EUR" out = some (RVal.num 1) ∧ out ≠ [] := by
  have hout := convert_ok_entries oxr rates (RVal.num q) out hr he hok
  subst hout
  have h1 := convertEntries_eur_lookup (RVal.num q) q rates he hq
  refine ⟨h1, ?_⟩
  intro hnil
  rw [hnil] at h1
  simp at h1

/-- Witness for C2 (amended) at the concrete snapshot `eurIntInput`. -/
theorem convert_eur_pivot_one_witness :
    List.lookup "EUR"
        (convertEntries (RVal.num 2) [("EUR", RVal.num 2), ("USD", RVal.num 1)]) =
        some (RVal.num 1) ∧
      convertEntries (RVal.num 2) [("EUR", RVal.num 2), ("USD", RVal.num 1)] ≠ [] :=
  convert_eur_pivot_one eurIntInput [("EUR", RVal.num 2), ("USD", RVal.num 1)]
    (convertEntries (RVal.num 2) [("EUR", RVal.num 2), ("USD", RVal.num 1)]) 2
    rfl rfl (by decide) rfl

/-- C3 counterexample: on a snapshot whose EUR entry is infinite, `convert`
does not raise — it returns a mapping — because the code only checks
`usd_to_eur <= 0` and `inf <= 0` is `False` in Python. -/
theorem convert_inf_pivot_returns :
    convert_usd_to_eur_base infPivotInput = Except.ok [("USD", RVal.num 0)] := rfl

/-- C3 (amended): `convert` raises `ValueError` (the invalid-base failure) for
every snapshot whose EUR entry is a number `<= 0` under Python comparison —
zero, negative, or -infinity; NaN and +infinity are not rejected. -/
theorem convert_nonpositive_pivot_raises (oxr : List (String × TopVal))
    (rates : List (String × RVal)) (v : RVal)
    (hr : List.lookup "rates" oxr = some (TopVal.dict rates))
    (he : List.lookup "EUR" rates = some v)
    (hv : v = RVal.ninf ∨ ∃ q, v = RVal.num q ∧ q ≤ 0) :
    convert_usd_to_eur_base oxr =
      Except.error (PyErr.valueError "EUR rate must be greater than zero") := by
  have hne : rates.isEmpty = false := by
    cases rates with
    | nil => simp at he
    | cons hd tl => rfl
  have hle : le0 v = Except.ok true := by
    rcases hv with h | ⟨q, hq, hq0⟩
    · subst h; rfl
    · subst hq; simp [le0, hq0]
  simp [convert_usd_to_eur_base, hr, hne, he, hle]

/-- Witness for C3 (amended) at the concrete snapshot with a zero EUR rate. -/
theorem convert_nonpositive_pivot_raises_witness :
    convert_usd_to_eur_base zeroPivotInput =
      Except.error (PyErr.valueError "EUR rate must be greater than zero") :=
  convert_nonpositive_pivot_raises zeroPivotInput
    [("EUR", RVal.num 0), ("USD", RVal.num 1)] (RVal.num 0)
    rfl rfl (Or.inr ⟨0, rfl, le_refl 0⟩)

/-- C5: on every snapshot that passes structural validation with pivot `k`,
each non-EUR entry holding a positive finite number `q` is mapped to the
Python quotient `q / k`; and on `rates = (EUR: 0.92, USD: 1.0)` the USD
output is within `1e-10` of `1.0869565217391304`. -/
theorem convert_division_correct :
    (∀ (oxr : List (String × TopVal)) (rates out : List (String × RVal)) (k : RVal)
        (c : String) (q : ℚ),
      convert_usd_to_eur_base oxr = Except.ok out →
      List.lookup "rates" oxr = some (TopVal.dict rates) →
      List.lookup "EUR" rates = some k →
      c ≠ "EUR" → List.lookup c rates = some (RVal.num q) → 0 < q →
      List.lookup c out = some (divByPivot q k)) ∧
    ∃ u : ℚ,
      convert_usd_to_eur_base usdExampleInput =
          Except.ok [("EUR", RVal.num 1), ("USD", RVal.num u)] ∧
        |u - 10869565217391304 / 10000000000000000| < 1 / 10000000000 := by
  constructor
  · intro oxr rates out k c q hok hr he hc hcl hq
    have hout := convert_ok_entries oxr rates k out hr he hok
    subst hout
    exact convertEntries_ne_lookup k c q hc rates hcl hq
  · refine ⟨25/23, ?_, ?_⟩
    · norm_num [convert_usd_to_eur_base, usdExampleInput, convertEntries, usableRate,
        le0, divByPivot, List.lookup]
      decide
    · rw [abs_sub_lt_iff]
      constructor <;> norm_num

/-- Witness for C5 at the concrete snapshot `eurIntInput`. -/
theorem convert_division_correct_witness :
    List.lookup "USD"
        (convertEntries (RVal.num 2) [("EUR", RVal.num 2), ("USD", RVal.num 1)]) =
      some (divByPivot 1 (RVal.num 2)) :=
  convert_division_correct.1 eurIntInput [("EUR", RVal.num 2), ("USD", RVal.num 1)]
    (convertEntries (RVal.num 2) [("EUR", RVal.num 2), ("USD", RVal.num 1)])
    (RVal.num 2) "USD" 1 rfl rfl rfl (by decide) rfl (by decide)

/-- C6: on every snapshot whose rates mapping is a non-empty dictionary with
no EUR entry, `convert` raises the missing-base `ValueError` instead of
returning a mapping (in particular it never returns an empty mapping). -/
theorem convert_missing_base_raises (oxr : List (String × TopVal))
    (rates : List (String × RVal))
    (hr : List.lookup "rates" oxr = some (TopVal.dict rates))
    (hne : rates ≠ [])
    (he : List.lookup "EUR" rates = none) :
    convert_usd_to_eur_base oxr =
      Except.error (PyErr.valueError "EUR rate not found in API response") := by
  have hne2 : rates.isEmpty = false := by
    cases rates with
    | nil => exact absurd rfl hne
    | cons hd tl => rfl
  simp [convert_usd_to_eur_base, hr, hne2, he]

/-- Witness for C6 at the concrete snapshot `rates = (GBP: 0.81)`. -/
theorem convert_missing_base_raises_witness :
    convert_usd_to_eur_base gbpOnlyInput =
      Except.error (PyErr.valueError "EUR rate not found in API response") :=
  convert_missing_base_raises gbpOnlyInput [("GBP", RVal.num (81/100))]
    rfl (by simp) rfl

/-- C7: on every snapshot that passes structural validation, a non-EUR entry
whose value is `None`, non-numeric, NaN, infinite or `<= 0` is omitted from
the output without failing the conversion; and on
`rates = (EUR: 0.92, USD: 1.0, BAD: -5.0)` the output holds exactly the keys
EUR and USD. -/
theorem convert_skips_invalid_entries :
    (∀ (oxr : List (String × TopVal)) (rates out : List (String × RVal)) (k : RVal)
        (c : String) (v : RVal),
      convert_usd_to_eur_base oxr = Except.ok out →
      List.lookup "rates" oxr = some (TopVal.dict rates) →
      List.lookup "EUR" rates = some k →
      (rates.map Prod.fst).Nodup →
      (c, v) ∈ rates → c ≠ "EUR" → usableRate v = none →
      List.lookup c out = none) ∧
    ∃ u : ℚ,
      convert_usd_to_eur_base badEntryInput =
        Except.ok [("EUR", RVal.num 1), ("USD", RVal.num u)] := by
  constructor
  · intro oxr rates out k c v hok hr he hnd hmem hc hu
    have hout := convert_ok_entries oxr rates k out hr he hok
    subst hout
    refine convertEntries_unusable_lookup k c rates ?_
    intro w hw
    rw [mem_eq_of_nodup_keys rates hnd c w v hw hmem]
    exact hu
  · refine ⟨25/23, ?_⟩
    norm_num [convert_usd_to_eur_base, badEntryInput, convertEntries, usableRate,
      le0, divByPivot, List.lookup]
    decide

/-- Witness for C7 at a concrete snapshot with an unusable negative entry. -/
theorem convert_skips_invalid_entries_witness :
    List.lookup "BAD"
        (convertEntries (RVal.num 2) [("EUR", RVal.num 2), ("BAD", RVal.num (-5))]) =
      none :=
  convert_skips_invalid_entries.1
    [("rates", .dict [("EUR", .num 2), ("BAD", .num (-5))])]
    [("EUR", RVal.num 2), ("BAD", RVal.num (-5))]
    (convertEntries (RVal.num 2) [("EUR", RVal.num 2), ("BAD", RVal.num (-5))])
    (RVal.num 2) "BAD" (RVal.num (-5))
    rfl rfl rfl (by decide) (by decide) (by decide) (by norm_num [usableRate])

/-- C1: upsert is idempotent — when one application of a batch succeeds
yielding destination content `s1.main`, then for every `n ≥ 1`, applying the
same batch `n` times from the same initial state succeeds and leaves the
destination with exactly the same content: the same rows per
`(date, currency)` key with the same `rate_to_eur` and `timestamp` values. -/
theorem upsert_same_batch_idempotent (pid : Option String) (f : StorageFaults)
    (s s1 : BQState) (records : List RateRecord) (n : Nat)
    (h1 : upsert_exchange_rates pid f s records = Except.ok s1) (hn : 1 ≤ n) :
    ∃ sn, upsertN pid f records n s = Except.ok sn ∧ sn.main = s1.main := by
  cases records with
  | nil =>
    have hs : s = s1 := by
      simpa [upsert_exchange_rates] using h1
    exact ⟨s, upsertN_nil pid f n s, by rw [hs]⟩
  | cons r rs =>
    obtain ⟨p, hp, hf, hm⟩ := upsert_ok_inversion pid f s s1 (r :: rs) (by simp) h1
    subst hp
    subst hf
    cases n with
    | zero => exact absurd hn (by simp)
    | succ m =>
      have hfix : mergeRows s1.main (r :: rs) = s1.main := by
        rw [hm, mergeRows_idem]
      obtain ⟨sn, hrun, hmain⟩ :=
        upsertN_fixed p (r :: rs) (by simp) s1.main hfix m s1 rfl
      refine ⟨sn, ?_, hmain⟩
      simp only [upsertN, h1, Except.bind]
      exact hrun

/-- Witness for C1: two applications of a concrete one-record batch from an
empty warehouse leave the destination exactly as one application does. -/
theorem upsert_same_batch_idempotent_witness :
    ∃ sn, upsertN (some "proj") noFaults [w1record] 2 w1start = Except.ok sn ∧
      sn.main = w1once.main :=
  upsert_same_batch_idempotent (some "proj") noFaults w1start w1once [w1record] 2
    rfl (by decide)

/-- C4 counterexample: an existing staging table whose timestamp column has
type STRING is dropped and recreated by the ensure step — the step does alter
the schema of an already-existing staging table. -/
theorem ensure_staging_alters_existing :
    ensure_staging_table (some badStagingTable) = some ⟨stagingSchema, []⟩ ∧
      ensure_staging_table (some badStagingTable) ≠ some badStagingTable :=
  ⟨rfl, by decide⟩

/-- C4 (amended): the ensure step leaves an existing staging table (schema
and rows) unchanged exactly when its timestamp column type is TIMESTAMP or
INTEGER — otherwise it drops and recreates it — and the step is always
idempotent. -/
theorem ensure_staging_frame_and_idem :
    (∀ t : StagingTable, timestampTypeOK t.schema = true →
        ensure_staging_table (some t) = some t) ∧
      ∀ st : Option StagingTable,
        ensure_staging_table (ensure_staging_table st) = ensure_staging_table st := by
  constructor
  · intro t h
    simp [ensure_staging_table, h]
  · intro st
    obtain ⟨t, ht, htok⟩ := ensure_some_tsOK st
    rw [ht]
    simp [ensure_staging_table, htok]

/-- Witness for C4 (amended): a table with an INTEGER timestamp column and a
non-fixed schema survives the ensure step untouched, rows included. -/
theorem ensure_staging_frame_and_idem_witness :
    ensure_staging_table (some goodStagingTable) = some goodStagingTable :=
  ensure_staging_frame_and_idem.1 goodStagingTable (by decide)

/-- C8: upserting an empty batch returns success and leaves the whole state —
staging table, destination table, and the operation trace (so no truncate,
load or merge ran) — unchanged, whatever the prior state. -/
theorem upsert_empty_batch_noop (pid : Option String) (f : StorageFaults) (s : BQState) :
    upsert_exchange_rates pid f s [] = Except.ok s := rfl

/-- C9 counterexample: a step-2 (truncate) failure and a step-3 (load)
failure with the same underlying storage error surface to the caller as the
very same raw error — not as distinct stage-typed wrappers — so the surfaced
error does not identify which stage failed. -/
theorem upsert_error_not_stage_typed :
    upsert_exchange_rates (some "proj") ⟨none, some "boom", none, none⟩ w1start [w1record] =
        Except.error (PyErr.storage "boom") ∧
      upsert_exchange_rates (some "proj") ⟨none, none, some "boom", none⟩ w1start [w1record] =
        Except.error (PyErr.storage "boom") := ⟨rfl, rfl⟩

/-- C9 (amended): whenever one of the four steps fails, the underlying
storage-layer error is logged and re-raised to the caller unchanged; no
stage-typed wrapper error exists. -/
theorem upsert_error_passthrough (p : String) (f : StorageFaults) (s : BQState)
    (records : List RateRecord) (e : String) (hne : records ≠ []) :
    (f.ensureErr = some e →
      upsert_exchange_rates (some p) f s records = Except.error (PyErr.storage e)) ∧
    (f.ensureErr = none → f.truncateErr = some e →
      upsert_exchange_rates (some p) f s records = Except.error (PyErr.storage e)) ∧
    (f.ensureErr = none → f.truncateErr = none → f.loadErr = some e →
      upsert_exchange_rates (some p) f s records = Except.error (PyErr.storage e)) ∧
    (f.ensureErr = none → f.truncateErr = none → f.loadErr = none →
      f.mergeErr = some e →
      upsert_exchange_rates (some p) f s records = Except.error (PyErr.storage e)) := by
  cases records with
  | nil => exact absurd rfl hne
  | cons r rs =>
    refine ⟨?_, ?_, ?_, ?_⟩
    · intro h1
      simp [upsert_exchange_rates, h1]
    · intro h1 h2
      simp [upsert_exchange_rates, h1, h2]
    · intro h1 h2 h3
      simp [upsert_exchange_rates, h1, h2, h3]
    · intro h1 h2 h3 h4
      simp [upsert_exchange_rates, h1, h2, h3, h4]

/-- Witness for C9 (amended): a step-1 (ensure) failure surfaces its
underlying storage error unchanged. -/
theorem upsert_error_passthrough_witness :
    upsert_exchange_rates (some "proj") ⟨some "boom", none, none, none⟩ w1start [w1record] =
      Except.error (PyErr.storage "boom") :=
  (upsert_error_passthrough "proj" ⟨some "boom", none, none, none⟩ w1start [w1record]
    "boom" (by simp)).1 rfl

/-- C10: an empty batch returns success before the environment is consulted —
it succeeds with `PROJECT_ID` unset and an arbitrary storage fault pending —
whereas any non-empty batch with `PROJECT_ID` unset raises the `get_client`
`ValueError` before step 1 runs. -/
theorem upsert_empty_skips_env_check (f : StorageFaults) (s : BQState)
    (records : List RateRecord) (hne : records ≠ []) :
    upsert_exchange_rates none f s [] = Except.ok s ∧
      upsert_exchange_rates none f s records =
        Except.error (PyErr.valueError "PROJECT_ID environment variable not set") := by
  refine ⟨rfl, ?_⟩
  cases records with
  | nil => exact absurd rfl hne
  | cons r rs => rfl

/-- Witness for C10 at a concrete state, batch, and pending ensure fault. -/
theorem upsert_empty_skips_env_check_witness :
    upsert_exchange_rates none ⟨some "boom", none, none, none⟩ w1start [] =
        Except.ok w1start ∧
      upsert_exchange_rates none ⟨some "boom", none, none, none⟩ w1start [w1record] =
        Except.error (PyErr.valueError "PROJECT_ID environment variable not set") :=
  upsert_empty_skips_env_check ⟨some "boom", none, none, none⟩ w1start [w1record]
    (by simp)

end ExchangeRates
